import Mathlib

/-!
Verification of the AWS infrastructure CIDR validator.

Shallow embedding of the network-CIDR validation logic of the
`gardener-extensions` repository:

* `ValidateInfrastructureConfig` / `ValidateInfrastructureConfigUpdate`
  (package `validation`, AWS provider),
* the admission-side helpers `infrastructureConfigFrom`,
  the AWS `validator.Validate` / `validator.ValidateUpdate` type switch,
  and the generic validator `validator.Validate`.

The helpers of the external `cidrvalidation` library
(`NewCIDR`, `ValidateCIDRIsCanonical`, `ValidateCIDRParse`,
`ValidateSubset`, `ValidateNotSubset`, `ValidateCIDROverlap`) and
`apivalidation.ValidateImmutableField` are not part of the repository
sources; they are modelled from the specification's description of the
algorithm (canonical form, subset, overlap, immutability).
-/

/-! ## Field paths and error lists -/

/-- A structured field path, mirroring `k8s.io/.../validation/field.Path`
(`nil`, `NewPath`, `.Child`, `.Index`). -/
inductive FieldPath where
  | nil : FieldPath
  | root (name : String) : FieldPath
  | child (p : FieldPath) (name : String) : FieldPath
  | index (p : FieldPath) (i : Nat) : FieldPath
deriving DecidableEq, Repr

/-- The error kinds used by the validator and its calling layer
(`field.Required`, `field.Invalid`, `field.InternalError`). -/
inductive ErrorType where
  | required : ErrorType
  | invalid : ErrorType
  | internalError : ErrorType
deriving DecidableEq, Repr

/-- One structured validation error: kind, field path, detail message. -/
structure FieldError where
  type : ErrorType
  field : FieldPath
  detail : String
deriving DecidableEq, Repr

/-- `field.ErrorList`: an ordered list of field errors. -/
abbrev ErrorList := List FieldError

/-- `field.Required(path, detail)`. -/
def FieldError.mkRequired (p : FieldPath) (detail : String) : FieldError :=
  ⟨ErrorType.required, p, detail⟩

/-- `field.Invalid(path, value, detail)` (the bad value is folded into the
detail message). -/
def FieldError.mkInvalid (p : FieldPath) (detail : String) : FieldError :=
  ⟨ErrorType.invalid, p, detail⟩

/-- `field.InternalError(path, err)`. -/
def FieldError.mkInternal (p : FieldPath) (detail : String) : FieldError :=
  ⟨ErrorType.internalError, p, detail⟩

/-- `p` lies at or below `q` in the field-path tree. -/
def FieldPath.isUnder : FieldPath → FieldPath → Prop
  | p, q =>
    p = q ∨
      match p with
      | FieldPath.nil => False
      | FieldPath.root _ => False
      | FieldPath.child p' _ => FieldPath.isUnder p' q
      | FieldPath.index p' _ => FieldPath.isUnder p' q

instance instDecIsUnder : ∀ p q : FieldPath, Decidable (FieldPath.isUnder p q)
  | FieldPath.nil, q =>
      decidable_of_iff (FieldPath.nil = q) (by simp [FieldPath.isUnder])
  | FieldPath.root n, q =>
      decidable_of_iff (FieldPath.root n = q) (by simp [FieldPath.isUnder])
  | FieldPath.child p' n, q =>
      have := instDecIsUnder p' q
      decidable_of_iff (FieldPath.child p' n = q ∨ FieldPath.isUnder p' q)
        (by simp [FieldPath.isUnder])
  | FieldPath.index p' i, q =>
      have := instDecIsUnder p' q
      decidable_of_iff (FieldPath.index p' i = q ∨ FieldPath.isUnder p' q)
        (by simp [FieldPath.isUnder])

/-! ## IPv4 CIDR parsing

Modelled from the spec: the repository calls Go's `net.ParseCIDR` (via the
`cidrvalidation` library, both outside the sources).  A CIDR literal is a
dotted-quad IPv4 address plus `/` plus a mask length `0..32`; parsing
returns the masked network address (host bits cleared) together with the
mask length, and fails on anything malformed. -/

/-- Split a character list on a separator character. -/
def splitOnChar (sep : Char) : List Char → List (List Char)
  | [] => [[]]
  | c :: cs =>
    if c = sep then
      [] :: splitOnChar sep cs
    else
      match splitOnChar sep cs with
      | [] => [[c]]
      | g :: gs => (c :: g) :: gs

/-- Numeric value of a list of decimal digits. -/
def digitsVal (cs : List Char) : Nat :=
  cs.foldl (fun acc c => acc * 10 + (c.toNat - 48)) 0

/-- Parse one dotted-quad octet: nonempty, all decimal digits, value `≤ 255`. -/
def parseOctet (cs : List Char) : Option Nat :=
  if cs ≠ [] ∧ cs.all Char.isDigit ∧ digitsVal cs ≤ 255 then
    some (digitsVal cs)
  else
    none

/-- Parse a dotted-quad IPv4 address into its 32-bit value. -/
def parseIPv4 (cs : List Char) : Option Nat :=
  match splitOnChar '.' cs with
  | [a, b, c, d] =>
    match parseOctet a, parseOctet b, parseOctet c, parseOctet d with
    | some va, some vb, some vc, some vd =>
        some (((va * 256 + vb) * 256 + vc) * 256 + vd)
    | _, _, _, _ => none
  | _ => none

/-- Parse a mask length: nonempty, all decimal digits, value `≤ 32`. -/
def parseMaskLen (cs : List Char) : Option Nat :=
  if cs ≠ [] ∧ cs.all Char.isDigit ∧ digitsVal cs ≤ 32 then
    some (digitsVal cs)
  else
    none

/-- An IPv4 network block: masked base address and mask length. -/
structure IPNet where
  base : Nat
  maskLen : Nat
deriving DecidableEq, Repr

/-- Clear the host bits of `ip` relative to a mask of length `len`. -/
def maskIP (ip len : Nat) : Nat :=
  (ip >>> (32 - len)) <<< (32 - len)

/-- Modelled from the spec: the unmasked result of parsing a CIDR literal —
the given address value plus the mask length (`net.ParseCIDR`'s first
return value). -/
def parseCIDRRaw (s : String) : Option (Nat × Nat) :=
  match splitOnChar '/' s.data with
  | [ipCs, maskCs] =>
    match parseIPv4 ipCs, parseMaskLen maskCs with
    | some ip, some len => some (ip, len)
    | _, _ => none
  | _ => none

/-- Modelled from the spec: parsing a CIDR literal into the network block it
denotes, host bits cleared (`net.ParseCIDR`'s `*net.IPNet` return value). -/
def parseCIDR (s : String) : Option IPNet :=
  match parseCIDRRaw s with
  | some (ip, len) => some ⟨maskIP ip len, len⟩
  | none => none

/-- First address of a block. -/
def IPNet.first (n : IPNet) : Nat := n.base

/-- Last address of a block. -/
def IPNet.last (n : IPNet) : Nat := n.base + 2 ^ (32 - n.maskLen) - 1

/-- Modelled from the spec: "CIDR A is a subset of CIDR B if every address
in A lies within B". -/
def IPNet.subsetOf (a b : IPNet) : Bool :=
  decide (b.first ≤ a.first) && decide (a.last ≤ b.last)

/-- Modelled from the spec: "two CIDRs overlap if their address ranges
intersect, in either subset direction or partial overlap". -/
def IPNet.intersects (a b : IPNet) : Bool :=
  decide (a.first ≤ b.last) && decide (b.first ≤ a.last)

/-- Decimal digits of a natural number (fuel-based, enough for 32 bits). -/
def natDigitsAux : Nat → Nat → List Char
  | 0, _ => []
  | fuel + 1, n =>
    if n < 10 then
      [Char.ofNat (48 + n)]
    else
      natDigitsAux fuel (n / 10) ++ [Char.ofNat (48 + n % 10)]

/-- Decimal representation of a natural number. -/
def natDigits (n : Nat) : List Char := natDigitsAux 12 n

/-- Re-serialize a network block into its canonical textual CIDR form. -/
def serializeCIDRChars (base len : Nat) : List Char :=
  natDigits (base / 16777216 % 256) ++ '.' ::
    (natDigits (base / 65536 % 256) ++ '.' ::
      (natDigits (base / 256 % 256) ++ '.' ::
        (natDigits (base % 256) ++ '/' :: natDigits len)))

/-! ## The AWS `InfrastructureConfig` data model -/

/-- `apisaws.VPC`: either an externally-owned id or an explicit CIDR
(two nullable fields in the wire format). -/
structure VPC where
  id : Option String
  cidr : Option String
deriving DecidableEq, Repr

/-- `apisaws.Zone`: one availability zone with its three CIDRs. -/
structure Zone where
  name : String
  internal : String
  public : String
  workers : String
deriving DecidableEq, Repr

/-- `apisaws.Networks`: the VPC descriptor plus the ordered zone list. -/
structure Networks where
  vpc : VPC
  zones : List Zone
deriving DecidableEq, Repr

/-- `apisaws.InfrastructureConfig`. -/
structure InfrastructureConfig where
  networks : Networks
deriving DecidableEq, Repr

/-! ## The CIDR-validation library, modelled from the spec -/

/-- `cidrvalidation.NewCIDR`: a textual CIDR plus the field path used for
error attribution. -/
structure CIDRObj where
  str : String
  path : FieldPath
deriving DecidableEq, Repr

/-- Lazily parse the CIDR object's text. -/
def CIDRObj.parse (c : CIDRObj) : Option IPNet := parseCIDR c.str

/-- The `networks` field path used by `ValidateInfrastructureConfig`. -/
def networksPath : FieldPath := FieldPath.root "networks"

/-- The `networks.zones` field path. -/
def zonesPath : FieldPath := networksPath.child "zones"

/-- The `networks.vpc` field path. -/
def vpcPath : FieldPath := networksPath.child "vpc"

/-- The `networks.vpc.cidr` field path. -/
def vpcCidrPath : FieldPath := vpcPath.child "cidr"

/-- The `networks.zones[i].internal` field path. -/
def zoneInternalPath (i : Nat) : FieldPath := (zonesPath.index i).child "internal"

/-- The `networks.zones[i].public` field path. -/
def zonePublicPath (i : Nat) : FieldPath := (zonesPath.index i).child "public"

/-- The `networks.zones[i].workers` field path. -/
def zoneWorkersPath (i : Nat) : FieldPath := (zonesPath.index i).child "workers"

/-- Modelled from the spec: `cidrvalidation.ValidateCIDRIsCanonical` (not in
the sources) — "a CIDR string is canonical if re-serializing its parsed
network address yields exactly the same string"; a string that does not
parse at all is left to the parse check. -/
def validateCIDRIsCanonical (p : FieldPath) (s : String) : ErrorList :=
  match parseCIDRRaw s with
  | some (ip, len) =>
    if serializeCIDRChars (maskIP ip len) len = s.data then []
    else [FieldError.mkInvalid p "must be valid canonical CIDR"]
  | none => []

/-- Modelled from the spec: `CIDR.ValidateParse` (not in the sources) — "any
parse failure appends an Invalid error at its path". -/
def CIDRObj.validateParse (c : CIDRObj) : ErrorList :=
  match c.parse with
  | some _ => []
  | none => [FieldError.mkInvalid c.path "invalid CIDR address"]

/-- Concatenate the error lists produced for each element. -/
def errJoin {α : Type} (f : α → ErrorList) : List α → ErrorList
  | [] => []
  | x :: xs => f x ++ errJoin f xs

/-- Modelled from the spec: `cidrvalidation.ValidateCIDRParse` (not in the
sources) — parse every collected CIDR, one Invalid error per failure. -/
def validateCIDRParse (cs : List CIDRObj) : ErrorList :=
  errJoin CIDRObj.validateParse cs

/-! ## `ValidateInfrastructureConfig`, phase by phase -/

/-- The flat "all zone CIDRs" collection built by the per-zone loop,
in zone-index then internal/public/workers order, starting at index `i`. -/
def zoneCIDRsFrom (i : Nat) : List Zone → List CIDRObj
  | [] => []
  | z :: zs =>
    ⟨z.internal, zoneInternalPath i⟩ :: ⟨z.public, zonePublicPath i⟩ ::
      ⟨z.workers, zoneWorkersPath i⟩ :: zoneCIDRsFrom (i + 1) zs

/-- The "all worker CIDRs" collection built by the per-zone loop. -/
def workerCIDRsFrom (i : Nat) : List Zone → List CIDRObj
  | [] => []
  | z :: zs => ⟨z.workers, zoneWorkersPath i⟩ :: workerCIDRsFrom (i + 1) zs

/-- The canonical-form errors emitted inside the per-zone loop:
internal, public, workers, per zone in index order. -/
def zoneCanonicalErrsFrom (i : Nat) : List Zone → ErrorList
  | [] => []
  | z :: zs =>
    validateCIDRIsCanonical (zoneInternalPath i) z.internal ++
    validateCIDRIsCanonical (zonePublicPath i) z.public ++
    validateCIDRIsCanonical (zoneWorkersPath i) z.workers ++
    zoneCanonicalErrsFrom (i + 1) zs

/-- Modelled from the spec: `nodes.ValidateSubset(workerCIDRs...)` (library
not in the sources) — "assert it is a superset of every entry in all worker
CIDRs; each violation appends one Invalid error at that worker's field
path"; entries that fail to parse are excluded. -/
def validateWorkersSubsetOfNodes (nodes : IPNet) : List CIDRObj → ErrorList
  | [] => []
  | w :: ws =>
    (match w.parse with
     | some wn =>
       if wn.subsetOf nodes then []
       else [FieldError.mkInvalid w.path "must be a subset of the nodes cidr"]
     | none => []) ++ validateWorkersSubsetOfNodes nodes ws

/-- Step 4 of the validator: the worker-subset check runs only "if
`nodesCIDR` parses successfully". -/
def workerSubsetErrs (nodesCIDR : String) (ws : List CIDRObj) : ErrorList :=
  match parseCIDR nodesCIDR with
  | some nn => validateWorkersSubsetOfNodes nn ws
  | none => []

/-- Modelled from the spec: `vpcCIDR.ValidateSubset(cidrs...)` (library not
in the sources) — "assert it is a superset of every parsed zone CIDR", each
failing assertion appending "one Invalid error scoped to the VPC CIDR
field". -/
def vpcSubsetZoneErrs (vn : IPNet) : List CIDRObj → ErrorList
  | [] => []
  | c :: cs =>
    (match c.parse with
     | some cn =>
       if cn.subsetOf vn then []
       else [FieldError.mkInvalid vpcCidrPath ("must be a superset of " ++ c.str)]
     | none => []) ++ vpcSubsetZoneErrs vn cs

/-- Modelled from the spec: one leg of `vpcCIDR.ValidateNotSubset(pods,
services)` (library not in the sources) — "it does NOT intersect parsed pod
CIDR or parsed service CIDR", a failing assertion appending one Invalid
error scoped to the VPC CIDR field. -/
def vpcNotIntersectErr (vn : IPNet) (label : String) (amb : Option String) : ErrorList :=
  match amb with
  | none => []
  | some s =>
    match parseCIDR s with
    | some cn =>
      if vn.intersects cn then
        [FieldError.mkInvalid vpcCidrPath ("must not intersect with the " ++ label ++ " cidr")]
      else []
    | none => []

/-- The VPC phase of `ValidateInfrastructureConfig`: the exactly-one-of
discriminator check on `{id, cidr}` and, for an explicit CIDR, its
canonical/parse checks followed by the superset and non-intersection
assertions. -/
def vpcPhaseErrs (vpc : VPC) (nodesCIDR : String) (pods services : Option String)
    (cidrs : List CIDRObj) : ErrorList :=
  match vpc.id, vpc.cidr with
  | none, none => [FieldError.mkInvalid vpcPath "must specify either a vpc id or a cidr"]
  | some _, some _ => [FieldError.mkInvalid vpcPath "must specify either a vpc id or a cidr"]
  | some _, none => []
  | none, some v =>
    validateCIDRIsCanonical vpcCidrPath v ++
    CIDRObj.validateParse ⟨v, vpcCidrPath⟩ ++
    (match parseCIDR v with
     | some vn =>
       (match parseCIDR nodesCIDR with
        | some nn =>
          if nn.subsetOf vn then []
          else [FieldError.mkInvalid vpcCidrPath "must be a superset of the nodes cidr"]
        | none => []) ++
       vpcSubsetZoneErrs vn cidrs ++
       vpcNotIntersectErr vn "pods" pods ++
       vpcNotIntersectErr vn "services" services
     | none => [])

/-- Modelled from the spec: the check of one unordered pair in the pairwise
overlap pass — both entries parsed and intersecting appends one Invalid
error. -/
def overlapPairErr (a b : CIDRObj) : ErrorList :=
  match a.parse, b.parse with
  | some an, some bn =>
    if an.intersects bn then
      [FieldError.mkInvalid a.path ("must not overlap with " ++ b.str)]
    else []
  | _, _ => []

/-- Modelled from the spec: `ValidateCIDROverlap(cidrs, cidrs, false)`
(library not in the sources) — "pairwise overlap check across all zone
CIDRs ... check each unordered pair once". -/
def pairwiseOverlapErrs : List CIDRObj → ErrorList
  | [] => []
  | c :: cs => errJoin (overlapPairErr c) cs ++ pairwiseOverlapErrs cs

/-- Modelled from the spec: one leg of `ValidateCIDROverlap([pods, services],
cidrs, false)` (library not in the sources) — the ambient pod/service CIDR,
when present and parseable, must not intersect any parsed zone CIDR; the
ambient CIDR carries a nil field path. -/
def ambientOverlapErrs (amb : Option String) (cidrs : List CIDRObj) : ErrorList :=
  match amb with
  | none => []
  | some s =>
    match parseCIDR s with
    | none => []
    | some an =>
      errJoin
        (fun c =>
          match c.parse with
          | some cn =>
            if an.intersects cn then
              [FieldError.mkInvalid FieldPath.nil ("must not overlap with " ++ c.str)]
            else []
          | none => [])
        cidrs

/-- The zone phase of `ValidateInfrastructureConfig`: the at-least-one-zone
check, the per-zone canonical checks, the parse pass over all collected zone
CIDRs, and the worker-subset check against the nodes CIDR. -/
def zonePhaseErrs (infra : InfrastructureConfig) (nodesCIDR : String) : ErrorList :=
  (if infra.networks.zones.length = 0 then
    [FieldError.mkRequired zonesPath "must specify at least the networks for one zone"]
   else []) ++
  zoneCanonicalErrsFrom 0 infra.networks.zones ++
  validateCIDRParse (zoneCIDRsFrom 0 infra.networks.zones) ++
  workerSubsetErrs nodesCIDR (workerCIDRsFrom 0 infra.networks.zones)

/-- The overlap phase of `ValidateInfrastructureConfig`: the pairwise zone
CIDR overlap check followed by the pod/service-versus-zone overlap checks. -/
def overlapPhaseErrs (infra : InfrastructureConfig) (pods services : Option String) : ErrorList :=
  pairwiseOverlapErrs (zoneCIDRsFrom 0 infra.networks.zones) ++
  ambientOverlapErrs pods (zoneCIDRsFrom 0 infra.networks.zones) ++
  ambientOverlapErrs services (zoneCIDRsFrom 0 infra.networks.zones)

/-- `validation.ValidateInfrastructureConfig`: the full validator, emitting
the zone-phase errors, then the VPC-phase errors, then the overlap-phase
errors, in emission order. -/
def ValidateInfrastructureConfig (infra : InfrastructureConfig) (nodesCIDR : String)
    (podsCIDR servicesCIDR : Option String) : ErrorList :=
  zonePhaseErrs infra nodesCIDR ++
  vpcPhaseErrs infra.networks.vpc nodesCIDR podsCIDR servicesCIDR
    (zoneCIDRsFrom 0 infra.networks.zones) ++
  overlapPhaseErrs infra podsCIDR servicesCIDR

/-- Modelled from the spec: `apivalidation.ValidateImmutableField` (not in
the sources) — "any difference is a single Invalid/immutability error on the
top-level networks field". -/
def validateImmutableNetworks (newN oldN : Networks) : ErrorList :=
  if newN = oldN then [] else [FieldError.mkInvalid networksPath "field is immutable"]

/-- `validation.ValidateInfrastructureConfigUpdate`: the immutability check
on `networks` followed by the full validation of the new config. -/
def ValidateInfrastructureConfigUpdate (oldConfig newConfig : InfrastructureConfig)
    (nodesCIDR : String) (podsCIDR servicesCIDR : Option String) : ErrorList :=
  validateImmutableNetworks newConfig.networks oldConfig.networks ++
  ValidateInfrastructureConfig newConfig nodesCIDR podsCIDR servicesCIDR

/-! ## The calling layer -/

/-- The outcome of decoding the raw provider-config bytes of an
Infrastructure object (the decoder itself lives outside the validator). -/
inductive DecodeResult where
  | success (cfg : InfrastructureConfig)
  | failure (msg : String)
deriving DecidableEq, Repr

/-- `validator.infrastructureConfigFrom`: a missing provider config (nil
`ProviderConfig` or nil `Raw`) yields an `Invalid` error; a decoding failure
yields an `InternalError`; otherwise the decoded config is returned. -/
def infrastructureConfigFrom (providerConfig : Option DecodeResult) :
    Except ErrorList InfrastructureConfig :=
  match providerConfig with
  | none =>
    Except.error [FieldError.mkInvalid FieldPath.nil "no infrastructureConfig provided"]
  | some (DecodeResult.failure msg) =>
    Except.error
      [FieldError.mkInternal FieldPath.nil ("could not decode provider config: " ++ msg)]
  | some (DecodeResult.success cfg) => Except.ok cfg

/-- The error list produced by `infrastructureConfigFrom` (empty on
success). -/
def infraConfigFromErrList (providerConfig : Option DecodeResult) : ErrorList :=
  match infrastructureConfigFrom providerConfig with
  | Except.error errs => errs
  | Except.ok _ => []

/-- The three ambient CIDRs the calling controller reads from the cluster's
shoot spec (`Networking.Nodes/Pods/Services`). -/
structure Cluster where
  nodes : String
  pods : Option String
  services : Option String

/-- An extension resource as seen by the AWS validator's type switch: an
Infrastructure carrying its raw provider config, a Worker, or any other
resource kind. -/
inductive ResourceObject where
  | infrastructure (providerConfig : Option DecodeResult)
  | worker (w : Nat)
  | other (kind : String)

/-- `validator.ValidateInfrastructure`: decode the provider config and run
the full CREATE validation. -/
def ValidateInfrastructure (cluster : Cluster)
    (providerConfig : Option DecodeResult) : ErrorList :=
  match infrastructureConfigFrom providerConfig with
  | Except.error errs => errs
  | Except.ok cfg =>
    ValidateInfrastructureConfig cfg cluster.nodes cluster.pods cluster.services

/-- `validator.ValidateInfrastructureUpdate`: decode both provider configs
and run the UPDATE validation. -/
def ValidateInfraUpdate (cluster : Cluster)
    (oldPC newPC : Option DecodeResult) : ErrorList :=
  match infrastructureConfigFrom oldPC with
  | Except.error errs => errs
  | Except.ok oldCfg =>
    match infrastructureConfigFrom newPC with
    | Except.error errs => errs
    | Except.ok newCfg =>
      ValidateInfrastructureConfigUpdate oldCfg newCfg
        cluster.nodes cluster.pods cluster.services

/-- `validator.Validate` (AWS provider): the type switch on the resource
kind; `ValidateWorker` lives outside the modelled sources and is taken as a
parameter. Any other kind falls through to a nil error list. -/
def awsValidate (validateWorker : Cluster → Nat → ErrorList) (cluster : Cluster) :
    ResourceObject → ErrorList
  | ResourceObject.infrastructure pc => ValidateInfrastructure cluster pc
  | ResourceObject.worker w => validateWorker cluster w
  | ResourceObject.other _ => []

/-- `validator.ValidateUpdate` (AWS provider): the type switch on the new
object; the old object is type-asserted to the same kind (`none` models the
assertion panic on a mismatch). Any other kind falls through to a nil error
list. -/
def awsValidateUpdate (validateWorkerUpdate : Cluster → Nat → Nat → ErrorList)
    (cluster : Cluster) : ResourceObject → ResourceObject → Option ErrorList
  | oldObj, ResourceObject.infrastructure pc =>
    match oldObj with
    | ResourceObject.infrastructure opc => some (ValidateInfraUpdate cluster opc pc)
    | _ => none
  | oldObj, ResourceObject.worker w =>
    match oldObj with
    | ResourceObject.worker ow => some (validateWorkerUpdate cluster ow w)
    | _ => none
  | _, ResourceObject.other _ => some []

/-! ## The generic validator -/

/-- The extension resource kinds dispatched by the generic validator's type
switch; `unhandled` stands for every kind with no case in the switch. -/
inductive ExtKind where
  | backupBucket
  | backupEntry
  | controlPlane
  | extensionResource
  | infrastructure
  | network
  | operatingSystemConfig
  | worker
  | unhandled
deriving DecidableEq, Repr

/-- An extension object as seen by the generic validator: its kind, the
namespace used to fetch the cluster, and an opaque payload standing for the
concrete object. -/
structure ExtObject where
  kind : ExtKind
  ns : String
  payload : Nat

/-- The generic validator's collaborators, abstracted: the per-kind generic
create/update validations (`extensionsvalidation.ValidateX`, outside the
sources), the provider-specific validator, and the cluster lookup. -/
structure GenericValidatorEnv where
  genericCreate : ExtObject → ErrorList
  genericUpdate : ExtObject → ExtObject → ErrorList
  providerCreate : Cluster → ExtObject → ErrorList
  providerUpdate : Cluster → ExtObject → ExtObject → ErrorList
  getCluster : String → Except String Cluster

/-- The generic extension-object validation of `validator.Validate`: the
type switch applies the per-kind create validation (no old object) or update
validation (old object of the same kind); an old object of a different kind,
or an unhandled kind, contributes nothing. -/
def genericExtValidationErrs (env : GenericValidatorEnv)
    (oldObj : Option ExtObject) (newObj : ExtObject) : ErrorList :=
  if newObj.kind = ExtKind.unhandled then []
  else
    match oldObj with
    | none => env.genericCreate newObj
    | some o => if o.kind = newObj.kind then env.genericUpdate o newObj else []

/-- The provider-specific part of `validator.Validate`: `Validate` for
creates, `ValidateUpdate` for updates. -/
def providerValidationErrs (env : GenericValidatorEnv) (cluster : Cluster)
    (oldObj : Option ExtObject) (newObj : ExtObject) : ErrorList :=
  match oldObj with
  | none => env.providerCreate cluster newObj
  | some o => env.providerUpdate cluster o newObj

/-- The formatted admission-rejection reason (`fmt.Errorf` on the list). -/
def formatErrorList (l : ErrorList) : String :=
  String.intercalate ", " (l.map FieldError.detail)

/-- `genericvalidator.validator.Validate`: fetch the cluster for the
object's namespace, run the kind-switched generic validation, append the
provider validator's result, and reject with the formatted list iff it is
non-empty. -/
def genericValidatorValidate (env : GenericValidatorEnv)
    (oldObj : Option ExtObject) (newObj : ExtObject) : Except String Unit :=
  match env.getCluster newObj.ns with
  | Except.error e => Except.error ("could not get cluster for namespace: " ++ e)
  | Except.ok cluster =>
    let allErrs :=
      genericExtValidationErrs env oldObj newObj ++
        providerValidationErrs env cluster oldObj newObj
    if allErrs.length > 0 then Except.error (formatErrorList allErrs)
    else Except.ok ()

/-! ## Counting helpers for the overlap check -/

/-- Whether two CIDR literals both parse and intersect. -/
def pairCheckStr (a b : String) : Bool :=
  match parseCIDR a, parseCIDR b with
  | some an, some bn => an.intersects bn
  | _, _ => false

/-- The number of intersecting unordered pairs of parsed entries in a list
of CIDR literals. -/
def ovlCount : List String → Nat
  | [] => 0
  | x :: xs => xs.countP (pairCheckStr x) + ovlCount xs

/-- The CIDR literals of a zone list, flattened in zone-index then
internal/public/workers order. -/
def zoneStrs : List Zone → List String
  | [] => []
  | z :: zs => z.internal :: z.public :: z.workers :: zoneStrs zs

/-- The worker-subset violation error for zone index `i`. -/
def workerSubsetErr (i : Nat) : FieldError :=
  FieldError.mkInvalid (zoneWorkersPath i) "must be a subset of the nodes cidr"

/-- The VPC discriminator error. -/
def vpcDiscErr : FieldError :=
  FieldError.mkInvalid vpcPath "must specify either a vpc id or a cidr"

/-! ## Concrete configurations used as witnesses -/

/-- The spec's end-to-end scenario: one zone, explicit VPC CIDR. -/
def e2eConfig : InfrastructureConfig :=
  ⟨⟨⟨none, some "10.0.0.0/16"⟩,
    [⟨"zone-a", "10.0.0.0/24", "10.0.1.0/24", "10.0.2.0/24"⟩]⟩⟩

/-- A fully valid one-zone configuration (nodes CIDR `10.0.0.0/16`). -/
def validConfig : InfrastructureConfig :=
  ⟨⟨⟨none, some "10.0.0.0/16"⟩,
    [⟨"zone-a", "10.0.0.0/24", "10.0.1.0/24", "10.0.2.0/24"⟩]⟩⟩

/-- `validConfig` with the worker CIDR moved outside the nodes CIDR. -/
def badWorkerConfig : InfrastructureConfig :=
  ⟨⟨⟨none, some "10.0.0.0/8"⟩,
    [⟨"zone-a", "10.0.0.0/24", "10.0.1.0/24", "10.1.0.0/24"⟩]⟩⟩

/-- A two-zone configuration whose zone A internal CIDR overlaps zone B's
public CIDR (the spec's overlap-symmetry example). -/
def overlapZoneA : Zone := ⟨"zone-a", "10.0.0.0/24", "10.0.1.0/24", "10.0.2.0/24"⟩

/-- Zone B of the overlap-symmetry example. -/
def overlapZoneB : Zone := ⟨"zone-b", "10.0.3.0/24", "10.0.0.128/25", "10.0.4.0/24"⟩

/-- The overlap-symmetry example, zones listed A then B. -/
def overlapConfigAB : InfrastructureConfig :=
  ⟨⟨⟨some "vpc-1234", none⟩, [overlapZoneA, overlapZoneB]⟩⟩

/-- The overlap-symmetry example, zones listed B then A. -/
def overlapConfigBA : InfrastructureConfig :=
  ⟨⟨⟨some "vpc-1234", none⟩, [overlapZoneB, overlapZoneA]⟩⟩

/-- A configuration whose zone `internal` CIDR is malformed (vpc by id). -/
def malformedConfig : InfrastructureConfig :=
  ⟨⟨⟨some "vpc-1234", none⟩, [⟨"zone-a", "nonsense", "10.0.1.0/24", "10.0.2.0/24"⟩]⟩⟩

/-- A one-zone configuration whose worker CIDR `10.1.0.0/24` lies outside
the nodes CIDR `10.0.0.0/16` (vpc by id). -/
def c5Config : InfrastructureConfig :=
  ⟨⟨⟨some "vpc-1234", none⟩, [⟨"zone-a", "10.0.0.0/24", "10.0.1.0/24", "10.1.0.0/24"⟩]⟩⟩

/-- A configuration supplying both a vpc id and a vpc CIDR. -/
def bothVPCConfig : InfrastructureConfig :=
  ⟨⟨⟨some "vpc-1234", some "10.0.0.0/16"⟩,
    [⟨"zone-a", "10.0.0.0/24", "10.0.1.0/24", "10.0.2.0/24"⟩]⟩⟩

/-- A cluster with nodes CIDR `10.0.0.0/16` and no pod/service CIDRs. -/
def cluster0 : Cluster := ⟨"10.0.0.0/16", none, none⟩

/-- A generic-validator environment whose collaborators all succeed with
empty error lists. -/
def genericEnv0 : GenericValidatorEnv :=
  ⟨fun _ => [], fun _ _ => [], fun _ _ => [], fun _ _ _ => [],
    fun _ => Except.ok cluster0⟩

/-- A concrete Infrastructure extension object. -/
def extObj0 : ExtObject := ⟨ExtKind.infrastructure, "shoot-ns", 0⟩

/-! ## Basic lemmas -/

theorem mem_errJoin {α : Type} {f : α → ErrorList} {e : FieldError} :
    ∀ {l : List α}, e ∈ errJoin f l ↔ ∃ x ∈ l, e ∈ f x := by
  intro l
  induction l with
  | nil => simp [errJoin]
  | cons x xs ih => simp [errJoin, ih]

theorem FieldPath.isUnder_refl (p : FieldPath) : p.isUnder p := by
  cases p <;> exact Or.inl rfl

theorem zoneInternalPath_under (i : Nat) : (zoneInternalPath i).isUnder zonesPath := by
  simp [zoneInternalPath, FieldPath.isUnder]

theorem zonePublicPath_under (i : Nat) : (zonePublicPath i).isUnder zonesPath := by
  simp [zonePublicPath, FieldPath.isUnder]

theorem zoneWorkersPath_under (i : Nat) : (zoneWorkersPath i).isUnder zonesPath := by
  simp [zoneWorkersPath, FieldPath.isUnder]

theorem ne_vpcPath_of_under_zones {p : FieldPath} (h : p.isUnder zonesPath) :
    p ≠ vpcPath := by
  intro hq
  subst hq
  revert h
  decide

theorem zoneWorkersPath_inj {i j : Nat} (h : zoneWorkersPath i = zoneWorkersPath j) :
    i = j := by
  simpa [zoneWorkersPath] using h

/-! ## Characterization of the error-producing helpers -/

theorem mem_validateCIDRIsCanonical {p : FieldPath} {s : String} {e : FieldError}
    (h : e ∈ validateCIDRIsCanonical p s) :
    e = FieldError.mkInvalid p "must be valid canonical CIDR" := by
  unfold validateCIDRIsCanonical at h
  split at h
  · split at h
    · simp at h
    · simpa using h
  · simp at h

theorem mem_validateParse {c : CIDRObj} {e : FieldError}
    (h : e ∈ CIDRObj.validateParse c) :
    e = FieldError.mkInvalid c.path "invalid CIDR address" := by
  unfold CIDRObj.validateParse at h
  split at h
  · simp at h
  · simpa using h

theorem mem_validateCIDRParse {cs : List CIDRObj} {e : FieldError}
    (h : e ∈ validateCIDRParse cs) :
    ∃ c ∈ cs, e = FieldError.mkInvalid c.path "invalid CIDR address" := by
  obtain ⟨c, hc, he⟩ := mem_errJoin.mp h
  exact ⟨c, hc, mem_validateParse he⟩

theorem mem_validateWorkersSubsetOfNodes {nodes : IPNet} {e : FieldError} :
    ∀ {ws : List CIDRObj}, e ∈ validateWorkersSubsetOfNodes nodes ws →
      ∃ w ∈ ws, e = FieldError.mkInvalid w.path "must be a subset of the nodes cidr" := by
  intro ws h
  induction ws with
  | nil => simp [validateWorkersSubsetOfNodes] at h
  | cons w ws ih =>
    unfold validateWorkersSubsetOfNodes at h
    rcases List.mem_append.mp h with h1 | h2
    · refine ⟨w, List.mem_cons_self _ _, ?_⟩
      revert h1
      split
      · split
        · intro h1; simp at h1
        · intro h1; simpa using h1
      · intro h1; simp at h1
    · obtain ⟨w', hw', he⟩ := ih h2
      exact ⟨w', List.mem_cons_of_mem _ hw', he⟩

theorem mem_workerSubsetErrs {n : String} {ws : List CIDRObj} {e : FieldError}
    (h : e ∈ workerSubsetErrs n ws) :
    ∃ w ∈ ws, e = FieldError.mkInvalid w.path "must be a subset of the nodes cidr" := by
  unfold workerSubsetErrs at h
  split at h
  · exact mem_validateWorkersSubsetOfNodes h
  · simp at h

theorem mem_vpcSubsetZoneErrs {vn : IPNet} {e : FieldError} :
    ∀ {cs : List CIDRObj}, e ∈ vpcSubsetZoneErrs vn cs →
      ∃ c ∈ cs, e = FieldError.mkInvalid vpcCidrPath ("must be a superset of " ++ c.str) := by
  intro cs h
  induction cs with
  | nil => simp [vpcSubsetZoneErrs] at h
  | cons c cs ih =>
    unfold vpcSubsetZoneErrs at h
    rcases List.mem_append.mp h with h1 | h2
    · refine ⟨c, List.mem_cons_self _ _, ?_⟩
      revert h1
      split
      · split
        · intro h1; simp at h1
        · intro h1; simpa using h1
      · intro h1; simp at h1
    · obtain ⟨c', hc', he⟩ := ih h2
      exact ⟨c', List.mem_cons_of_mem _ hc', he⟩

theorem mem_vpcNotIntersectErr {vn : IPNet} {label : String} {amb : Option String}
    {e : FieldError} (h : e ∈ vpcNotIntersectErr vn label amb) :
    e = FieldError.mkInvalid vpcCidrPath ("must not intersect with the " ++ label ++ " cidr") := by
  unfold vpcNotIntersectErr at h
  split at h
  · simp at h
  · split at h
    · split at h
      · simpa using h
      · simp at h
    · simp at h

theorem mem_overlapPairErr {a b : CIDRObj} {e : FieldError}
    (h : e ∈ overlapPairErr a b) :
    e = FieldError.mkInvalid a.path ("must not overlap with " ++ b.str) := by
  unfold overlapPairErr at h
  split at h
  · split at h
    · simpa using h
    · simp at h
  · simp at h

theorem mem_pairwiseOverlapErrs {e : FieldError} :
    ∀ {cs : List CIDRObj}, e ∈ pairwiseOverlapErrs cs →
      ∃ a ∈ cs, ∃ b ∈ cs, e = FieldError.mkInvalid a.path ("must not overlap with " ++ b.str) := by
  intro cs h
  induction cs with
  | nil => simp [pairwiseOverlapErrs] at h
  | cons c cs ih =>
    unfold pairwiseOverlapErrs at h
    rcases List.mem_append.mp h with h1 | h2
    · obtain ⟨b, hb, he⟩ := mem_errJoin.mp h1
      exact ⟨c, List.mem_cons_self _ _, b, List.mem_cons_of_mem _ hb,
        mem_overlapPairErr he⟩
    · obtain ⟨a, ha, b, hb, he⟩ := ih h2
      exact ⟨a, List.mem_cons_of_mem _ ha, b, List.mem_cons_of_mem _ hb, he⟩

theorem mem_ambientOverlapErrs {amb : Option String} {cs : List CIDRObj} {e : FieldError}
    (h : e ∈ ambientOverlapErrs amb cs) :
    e.type = ErrorType.invalid ∧ e.field = FieldPath.nil := by
  unfold ambientOverlapErrs at h
  split at h
  · simp at h
  · split at h
    · simp at h
    · obtain ⟨c, hc, he⟩ := mem_errJoin.mp h
      revert he
      split
      · split
        · intro he
          simp only [List.mem_singleton] at he
          subst he
          exact ⟨rfl, rfl⟩
        · intro he; simp at he
      · intro he; simp at he

theorem mem_zoneCIDRsFrom_path {c : CIDRObj} :
    ∀ {i : Nat} {zs : List Zone}, c ∈ zoneCIDRsFrom i zs →
      ∃ j, c.path = zoneInternalPath j ∨ c.path = zonePublicPath j ∨
        c.path = zoneWorkersPath j := by
  intro i zs
  induction zs generalizing i with
  | nil => intro h; simp [zoneCIDRsFrom] at h
  | cons z zs ih =>
    intro h
    simp only [zoneCIDRsFrom, List.mem_cons] at h
    rcases h with h | h | h | h
    · subst h; exact ⟨i, Or.inl rfl⟩
    · subst h; exact ⟨i, Or.inr (Or.inl rfl)⟩
    · subst h; exact ⟨i, Or.inr (Or.inr rfl)⟩
    · exact ih h

theorem mem_workerCIDRsFrom_path {c : CIDRObj} :
    ∀ {i : Nat} {zs : List Zone}, c ∈ workerCIDRsFrom i zs →
      ∃ j, c.path = zoneWorkersPath j := by
  intro i zs
  induction zs generalizing i with
  | nil => intro h; simp [workerCIDRsFrom] at h
  | cons z zs ih =>
    intro h
    simp only [workerCIDRsFrom, List.mem_cons] at h
    rcases h with h | h
    · subst h; exact ⟨i, rfl⟩
    · exact ih h

theorem zoneCIDRPath_under {c : CIDRObj} {i : Nat} {zs : List Zone}
    (h : c ∈ zoneCIDRsFrom i zs) : c.path.isUnder zonesPath := by
  obtain ⟨j, hj | hj | hj⟩ := mem_zoneCIDRsFrom_path h <;> rw [hj]
  · exact zoneInternalPath_under j
  · exact zonePublicPath_under j
  · exact zoneWorkersPath_under j

theorem mem_zoneCanonicalErrsFrom {e : FieldError} :
    ∀ {i : Nat} {zs : List Zone}, e ∈ zoneCanonicalErrsFrom i zs →
      ∃ j, (e.field = zoneInternalPath j ∨ e.field = zonePublicPath j ∨
        e.field = zoneWorkersPath j) ∧ e.type = ErrorType.invalid := by
  intro i zs
  induction zs generalizing i with
  | nil => intro h; simp [zoneCanonicalErrsFrom] at h
  | cons z zs ih =>
    intro h
    unfold zoneCanonicalErrsFrom at h
    rcases List.mem_append.mp h with h' | h4
    · rcases List.mem_append.mp h' with h'' | h3
      · rcases List.mem_append.mp h'' with h1 | h2
        · rw [mem_validateCIDRIsCanonical h1]; exact ⟨i, Or.inl rfl, rfl⟩
        · rw [mem_validateCIDRIsCanonical h2]; exact ⟨i, Or.inr (Or.inl rfl), rfl⟩
      · rw [mem_validateCIDRIsCanonical h3]; exact ⟨i, Or.inr (Or.inr rfl), rfl⟩
    · exact ih h4

/-- Every zone-phase error is `Required` or `Invalid` and lies under the
`networks.zones` field path. -/
theorem mem_zonePhaseErrs {infra : InfrastructureConfig} {n : String} {e : FieldError}
    (h : e ∈ zonePhaseErrs infra n) :
    (e.type = ErrorType.required ∨ e.type = ErrorType.invalid) ∧
      e.field.isUnder zonesPath := by
  unfold zonePhaseErrs at h
  rcases List.mem_append.mp h with h' | h4
  · rcases List.mem_append.mp h' with h'' | h3
    · rcases List.mem_append.mp h'' with h1 | h2
      · revert h1
        split
        · intro h1
          simp only [List.mem_singleton] at h1
          subst h1
          exact ⟨Or.inl rfl, FieldPath.isUnder_refl _⟩
        · intro h1; simp at h1
      · obtain ⟨j, hj, ht⟩ := mem_zoneCanonicalErrsFrom h2
        refine ⟨Or.inr ht, ?_⟩
        rcases hj with hj | hj | hj <;> rw [hj]
        · exact zoneInternalPath_under j
        · exact zonePublicPath_under j
        · exact zoneWorkersPath_under j
    · obtain ⟨c, hc, he⟩ := mem_validateCIDRParse h3
      subst he
      exact ⟨Or.inr rfl, zoneCIDRPath_under hc⟩
  · obtain ⟨w, hw, he⟩ := mem_workerSubsetErrs h4
    subst he
    obtain ⟨j, hj⟩ := mem_workerCIDRsFrom_path hw
    refine ⟨Or.inr rfl, ?_⟩
    show (w.path).isUnder zonesPath
    rw [hj]
    exact zoneWorkersPath_under j

/-- Every VPC-phase error is `Invalid` and sits on the `networks.vpc` path
or the `networks.vpc.cidr` path. -/
theorem mem_vpcPhaseErrs {vpc : VPC} {n : String} {p s : Option String}
    {cs : List CIDRObj} {e : FieldError} (h : e ∈ vpcPhaseErrs vpc n p s cs) :
    e.type = ErrorType.invalid ∧ (e.field = vpcPath ∨ e.field = vpcCidrPath) := by
  unfold vpcPhaseErrs at h
  rcases hid : vpc.id with _ | a <;> rcases hcidr : vpc.cidr with _ | v <;>
    rw [hid, hcidr] at h
  · simp only [List.mem_singleton] at h
    subst h
    exact ⟨rfl, Or.inl rfl⟩
  · rcases List.mem_append.mp h with h' | h3
    · rcases List.mem_append.mp h' with h1 | h2
      · rw [mem_validateCIDRIsCanonical h1]; exact ⟨rfl, Or.inr rfl⟩
      · rw [mem_validateParse h2]; exact ⟨rfl, Or.inr rfl⟩
    · revert h3
      split
      · intro h3
        rcases List.mem_append.mp h3 with h'' | hsvc
        · rcases List.mem_append.mp h'' with h''' | hpods
          · rcases List.mem_append.mp h''' with hnod | hzone
            · revert hnod
              split
              · split
                · intro hnod; simp at hnod
                · intro hnod
                  simp only [List.mem_singleton] at hnod
                  subst hnod
                  exact ⟨rfl, Or.inr rfl⟩
              · intro hnod; simp at hnod
            · obtain ⟨c, hc, he⟩ := mem_vpcSubsetZoneErrs hzone
              rw [he]; exact ⟨rfl, Or.inr rfl⟩
          · rw [mem_vpcNotIntersectErr hpods]; exact ⟨rfl, Or.inr rfl⟩
        · rw [mem_vpcNotIntersectErr hsvc]; exact ⟨rfl, Or.inr rfl⟩
      · intro h3; simp at h3
  · simp at h
  · simp only [List.mem_singleton] at h
    subst h
    exact ⟨rfl, Or.inl rfl⟩

/-- Every overlap-phase error is `Invalid` and sits under the
`networks.zones` path or on the nil path (the ambient pod/service CIDRs). -/
theorem mem_overlapPhaseErrs {infra : InfrastructureConfig} {p s : Option String}
    {e : FieldError} (h : e ∈ overlapPhaseErrs infra p s) :
    e.type = ErrorType.invalid ∧
      (e.field.isUnder zonesPath ∨ e.field = FieldPath.nil) := by
  unfold overlapPhaseErrs at h
  rcases List.mem_append.mp h with h' | h3
  · rcases List.mem_append.mp h' with h1 | h2
    · obtain ⟨a, ha, b, hb, he⟩ := mem_pairwiseOverlapErrs h1
      subst he
      exact ⟨rfl, Or.inl (zoneCIDRPath_under ha)⟩
    · obtain ⟨ht, hf⟩ := mem_ambientOverlapErrs h2
      exact ⟨ht, Or.inr hf⟩
  · obtain ⟨ht, hf⟩ := mem_ambientOverlapErrs h3
    exact ⟨ht, Or.inr hf⟩

/-! ## Counting lemmas for the VPC discriminator -/

theorem nil_ne_vpcPath : FieldPath.nil ≠ vpcPath := by decide

theorem vpcCidrPath_ne_vpcPath : vpcCidrPath ≠ vpcPath := by decide

theorem mem_vpcPhaseErrs_cidrOnly {v : String} {n : String} {p s : Option String}
    {cs : List CIDRObj} {e : FieldError}
    (h : e ∈ vpcPhaseErrs ⟨none, some v⟩ n p s cs) : e.field = vpcCidrPath := by
  simp only [vpcPhaseErrs] at h
  rcases List.mem_append.mp h with h' | h3
  · rcases List.mem_append.mp h' with h1 | h2
    · rw [mem_validateCIDRIsCanonical h1]
      rfl
    · rw [mem_validateParse h2]
      rfl
  · revert h3
    split
    · intro h3
      rcases List.mem_append.mp h3 with h'' | hsvc
      · rcases List.mem_append.mp h'' with h''' | hpods
        · rcases List.mem_append.mp h''' with hnod | hzone
          · revert hnod
            split
            · split
              · intro hnod; simp at hnod
              · intro hnod
                simp only [List.mem_singleton] at hnod
                subst hnod
                rfl
            · intro hnod; simp at hnod
          · obtain ⟨c, hc, he⟩ := mem_vpcSubsetZoneErrs hzone
            rw [he]
            rfl
        · rw [mem_vpcNotIntersectErr hpods]
          rfl
      · rw [mem_vpcNotIntersectErr hsvc]
        rfl
    · intro h3; simp at h3

theorem countP_vpcPath_zonePhase (infra : InfrastructureConfig) (n : String) :
    (zonePhaseErrs infra n).countP (fun e => decide (e.field = vpcPath)) = 0 := by
  rw [List.countP_eq_zero]
  intro e he
  simpa using ne_vpcPath_of_under_zones (mem_zonePhaseErrs he).2

theorem countP_vpcPath_overlapPhase (infra : InfrastructureConfig) (p s : Option String) :
    (overlapPhaseErrs infra p s).countP (fun e => decide (e.field = vpcPath)) = 0 := by
  rw [List.countP_eq_zero]
  intro e he
  rcases (mem_overlapPhaseErrs he).2 with hu | hn
  · simpa using ne_vpcPath_of_under_zones hu
  · simp only [decide_eq_true_eq]
    rw [hn]
    exact nil_ne_vpcPath

/-! ## Lemmas about range intersection -/

theorem IPNet.first_le_last (a : IPNet) : a.first ≤ a.last := by
  have h : 0 < 2 ^ (32 - a.maskLen) := Nat.pos_pow_of_pos _ (by decide)
  unfold IPNet.first IPNet.last
  omega

theorem IPNet.intersects_comm (a b : IPNet) : a.intersects b = b.intersects a := by
  unfold IPNet.intersects
  rw [Bool.and_comm]

/-- `intersects` means the two address ranges share an address. -/
theorem IPNet.intersects_iff_exists (a b : IPNet) :
    a.intersects b = true ↔
      ∃ x, (a.first ≤ x ∧ x ≤ a.last) ∧ (b.first ≤ x ∧ x ≤ b.last) := by
  unfold IPNet.intersects
  constructor
  · intro h
    simp only [Bool.and_eq_true, decide_eq_true_eq] at h
    obtain ⟨h1, h2⟩ := h
    refine ⟨max a.first b.first, ⟨le_max_left _ _, max_le a.first_le_last h2⟩,
      le_max_right _ _, max_le h1 b.first_le_last⟩
  · rintro ⟨x, ⟨ha1, ha2⟩, hb1, hb2⟩
    simp only [Bool.and_eq_true, decide_eq_true_eq]
    exact ⟨le_trans ha1 hb2, le_trans hb1 ha2⟩

/-! ## Counting lemmas for the pairwise overlap check -/

theorem pairCheckStr_comm (a b : String) : pairCheckStr a b = pairCheckStr b a := by
  unfold pairCheckStr
  cases parseCIDR a <;> cases parseCIDR b <;> simp [IPNet.intersects_comm]

theorem length_overlapPairErr (a b : CIDRObj) :
    (overlapPairErr a b).length = if pairCheckStr a.str b.str then 1 else 0 := by
  unfold overlapPairErr pairCheckStr CIDRObj.parse
  cases parseCIDR a.str <;> cases parseCIDR b.str
  · rfl
  · rfl
  · rfl
  · rename_i an bn
    cases h : an.intersects bn <;> simp [h]

theorem length_errJoin_overlapPair (c : CIDRObj) (cs : List CIDRObj) :
    (errJoin (overlapPairErr c) cs).length =
      cs.countP (fun d => pairCheckStr c.str d.str) := by
  induction cs with
  | nil => rfl
  | cons d ds ih =>
    simp only [errJoin, List.length_append, ih, List.countP_cons, length_overlapPairErr]
    cases h : pairCheckStr c.str d.str
    all_goals simp [h]
    all_goals omega

theorem length_pairwiseOverlapErrs (cs : List CIDRObj) :
    (pairwiseOverlapErrs cs).length = ovlCount (cs.map CIDRObj.str) := by
  induction cs with
  | nil => rfl
  | cons c cs ih =>
    simp only [pairwiseOverlapErrs, List.length_append, ih, List.map_cons, ovlCount,
      length_errJoin_overlapPair, List.countP_map]
    rfl

theorem ovlCount_perm {l l' : List String} (h : l.Perm l') : ovlCount l = ovlCount l' := by
  induction h with
  | nil => rfl
  | cons x h ih =>
    simp only [ovlCount, ih, h.countP_eq]
  | swap x y l =>
    simp only [ovlCount, List.countP_cons, pairCheckStr_comm x y]
    cases pairCheckStr y x <;> simp <;> omega
  | trans h1 h2 ih1 ih2 => exact ih1.trans ih2

theorem zoneCIDRsFrom_map_str :
    ∀ (i : Nat) (zs : List Zone), (zoneCIDRsFrom i zs).map CIDRObj.str = zoneStrs zs := by
  intro i zs
  induction zs generalizing i with
  | nil => rfl
  | cons z zs ih => simp [zoneCIDRsFrom, zoneStrs, ih]

theorem zoneStrs_perm {zs zs' : List Zone} (h : zs.Perm zs') :
    (zoneStrs zs).Perm (zoneStrs zs') := by
  induction h with
  | nil => exact List.Perm.refl _
  | cons z h ih => exact (ih.cons _).cons _ |>.cons _
  | swap x y l =>
    have hxy : List.Perm
        (([y.internal, y.public, y.workers] ++ [x.internal, x.public, x.workers])
          ++ zoneStrs l)
        (([x.internal, x.public, x.workers] ++ [y.internal, y.public, y.workers])
          ++ zoneStrs l) :=
      List.Perm.append_right _ List.perm_append_comm
    simpa [zoneStrs] using hxy
  | trans h1 h2 ih1 ih2 => exact ih1.trans ih2

/-! ## Counting lemmas for the worker-subset check -/

theorem mem_workerCIDRsFrom_ge {c : CIDRObj} :
    ∀ {i : Nat} {zs : List Zone}, c ∈ workerCIDRsFrom i zs →
      ∃ j, i ≤ j ∧ c.path = zoneWorkersPath j := by
  intro i zs
  induction zs generalizing i with
  | nil => intro h; simp [workerCIDRsFrom] at h
  | cons z zs ih =>
    intro h
    simp only [workerCIDRsFrom, List.mem_cons] at h
    rcases h with h | h
    · subst h; exact ⟨i, le_refl i, rfl⟩
    · obtain ⟨j, hij, hj⟩ := ih h
      exact ⟨j, le_trans (Nat.le_succ i) hij, hj⟩

theorem countP_workersPath_zero {nodes : IPNet} {i0 i : Nat} {zs : List Zone}
    (hlt : i < i0) :
    (validateWorkersSubsetOfNodes nodes (workerCIDRsFrom i0 zs)).countP
      (fun e => decide (e.field = zoneWorkersPath i)) = 0 := by
  rw [List.countP_eq_zero]
  intro e he
  obtain ⟨w, hw, he'⟩ := mem_validateWorkersSubsetOfNodes he
  obtain ⟨j, hij, hj⟩ := mem_workerCIDRsFrom_ge hw
  subst he'
  simp only [decide_eq_true_eq]
  show w.path ≠ zoneWorkersPath i
  rw [hj]
  intro hc
  have := zoneWorkersPath_inj hc
  omega

theorem validateWorkers_cons (nodes : IPNet) (w : CIDRObj) (ws : List CIDRObj) :
    validateWorkersSubsetOfNodes nodes (w :: ws) =
      validateWorkersSubsetOfNodes nodes [w] ++ validateWorkersSubsetOfNodes nodes ws := by
  show _ ++ _ = (_ ++ validateWorkersSubsetOfNodes nodes []) ++ _
  show _ ++ _ = (_ ++ ([] : ErrorList)) ++ _
  rw [List.append_nil]

theorem countP_validateWorkers_single_ne {nodes : IPNet} {w : CIDRObj} {i : Nat}
    (hne : w.path ≠ zoneWorkersPath i) :
    (validateWorkersSubsetOfNodes nodes [w]).countP
      (fun e => decide (e.field = zoneWorkersPath i)) = 0 := by
  rw [List.countP_eq_zero]
  intro e he
  obtain ⟨w', hw', he'⟩ := mem_validateWorkersSubsetOfNodes he
  simp only [List.mem_singleton] at hw'
  subst hw'
  subst he'
  simpa using hne

theorem countP_validateWorkers_single_parsed {nodes : IPNet} {w : CIDRObj} {wn : IPNet}
    {i : Nat} (hp : w.parse = some wn) (hpath : w.path = zoneWorkersPath i) :
    (validateWorkersSubsetOfNodes nodes [w]).countP
      (fun e => decide (e.field = zoneWorkersPath i)) =
      if wn.subsetOf nodes then 0 else 1 := by
  unfold validateWorkersSubsetOfNodes
  rw [hp]
  cases hsub : wn.subsetOf nodes
  all_goals simp [hsub, hpath, FieldError.mkInvalid, validateWorkersSubsetOfNodes]

theorem workerSubset_countP (nodes : IPNet) :
    ∀ (zs : List Zone) (i0 i : Nat) (z : Zone), zs[i]? = some z →
      ∀ wn : IPNet, parseCIDR z.workers = some wn →
        (validateWorkersSubsetOfNodes nodes (workerCIDRsFrom i0 zs)).countP
          (fun e => decide (e.field = zoneWorkersPath (i0 + i))) =
          if wn.subsetOf nodes then 0 else 1 := by
  intro zs
  induction zs with
  | nil => intro i0 i z hz; simp at hz
  | cons z' zs ih =>
    intro i0 i z hz wn hw
    rw [show workerCIDRsFrom i0 (z' :: zs) =
      ⟨z'.workers, zoneWorkersPath i0⟩ :: workerCIDRsFrom (i0 + 1) zs from rfl]
    rw [validateWorkers_cons, List.countP_append]
    rcases i with _ | i
    · simp only [List.getElem?_cons_zero, Option.some.injEq] at hz
      have hp : CIDRObj.parse ⟨z'.workers, zoneWorkersPath i0⟩ = some wn := by
        show parseCIDR z'.workers = some wn
        rw [hz]
        exact hw
      rw [Nat.add_zero]
      rw [countP_validateWorkers_single_parsed hp rfl]
      rw [countP_workersPath_zero (by omega)]
      omega
    · simp only [List.getElem?_cons_succ] at hz
      have hne : CIDRObj.path ⟨z'.workers, zoneWorkersPath i0⟩ ≠
          zoneWorkersPath (i0 + (i + 1)) := by
        show zoneWorkersPath i0 ≠ zoneWorkersPath (i0 + (i + 1))
        intro hc
        have := zoneWorkersPath_inj hc
        omega
      rw [countP_validateWorkers_single_ne hne]
      have hrec := ih (i0 + 1) i z hz wn hw
      rw [show i0 + 1 + i = i0 + (i + 1) from by omega] at hrec
      rw [hrec]
      omega

/-! ## Claim theorems -/

/-- C1 (counterexample): on the spec's end-to-end scenario — one zone
`10.0.0.0/24` / `10.0.1.0/24` / `10.0.2.0/24`, nodes CIDR `10.0.0.0/8`, VPC
CIDR `10.0.0.0/16`, pods `100.64.0.0/16`, services `100.65.0.0/16` —
`ValidateInfrastructureConfig` does not return the empty ErrorList: the node
CIDR `10.0.0.0/8` is not a subset of the VPC CIDR `10.0.0.0/16`, so the
VPC-superset assertion fails. -/
theorem C1_e2e_counterexample :
    ValidateInfrastructureConfig e2eConfig "10.0.0.0/8"
      (some "100.64.0.0/16") (some "100.65.0.0/16") ≠ [] := by
  decide

/-- C1 (amended): on the end-to-end scenario the validator returns exactly
one error — an `Invalid` error on the VPC CIDR field because the node CIDR
`10.0.0.0/8` is not a subset of the VPC CIDR `10.0.0.0/16`; every other
check passes. -/
theorem C1_e2e_single_error :
    ValidateInfrastructureConfig e2eConfig "10.0.0.0/8"
      (some "100.64.0.0/16") (some "100.65.0.0/16") =
      [FieldError.mkInvalid vpcCidrPath "must be a superset of the nodes cidr"] := by
  decide

/-- C4: if the old and new `networks` differ in any field, the update
validator returns a non-empty list containing the Invalid immutability error
on the top-level networks field; and for every old and new config the update
result contains every error the create validator produces for the new
config. -/
theorem C4_update_immutability (oldC newC : InfrastructureConfig) (n : String)
    (p s : Option String) :
    (oldC.networks ≠ newC.networks →
      ValidateInfrastructureConfigUpdate oldC newC n p s ≠ [] ∧
        FieldError.mkInvalid networksPath "field is immutable" ∈
          ValidateInfrastructureConfigUpdate oldC newC n p s) ∧
    ∀ e ∈ ValidateInfrastructureConfig newC n p s,
      e ∈ ValidateInfrastructureConfigUpdate oldC newC n p s := by
  constructor
  · intro hne
    unfold ValidateInfrastructureConfigUpdate validateImmutableNetworks
    rw [if_neg (fun h => hne h.symm)]
    exact ⟨by simp, by simp⟩
  · intro e he
    unfold ValidateInfrastructureConfigUpdate
    exact List.mem_append_right _ he

/-- C4 witness: a concrete update whose new config alone is fully valid but
whose networks differ from the old config is rejected with the immutability
error. -/
theorem C4_update_immutability_witness :
    ValidateInfrastructureConfigUpdate c5Config validConfig "10.0.0.0/16"
        (some "100.64.0.0/16") (some "100.65.0.0/16") ≠ [] ∧
      FieldError.mkInvalid networksPath "field is immutable" ∈
        ValidateInfrastructureConfigUpdate c5Config validConfig "10.0.0.0/16"
          (some "100.64.0.0/16") (some "100.65.0.0/16") ∧
      ValidateInfrastructureConfig validConfig "10.0.0.0/16"
        (some "100.64.0.0/16") (some "100.65.0.0/16") = [] := by
  have h := (C4_update_immutability c5Config validConfig "10.0.0.0/16"
    (some "100.64.0.0/16") (some "100.65.0.0/16")).1 (by decide)
  exact ⟨h.1, h.2, by decide⟩

/-- C9: a resource that is neither an Infrastructure nor a Worker passes the
AWS provider validator's type switches untouched: both `Validate` and
`ValidateUpdate` return the nil (empty) error list, for any worker validator,
any cluster and any old object. -/
theorem C9_other_kinds_admitted (vw : Cluster → Nat → ErrorList)
    (vwu : Cluster → Nat → Nat → ErrorList) (cluster : Cluster) (k : String)
    (oldObj : ResourceObject) :
    awsValidate vw cluster (ResourceObject.other k) = [] ∧
      awsValidateUpdate vwu cluster oldObj (ResourceObject.other k) = some [] := by
  constructor
  · rfl
  · cases oldObj <;> rfl

/-- C7: the returned list is exactly the zone-phase errors followed by the
VPC-phase errors followed by the overlap-phase errors (emission order =
check order); zone-phase errors lie under the `networks.zones` path,
VPC-phase errors on the `networks.vpc` or `networks.vpc.cidr` path, and
overlap-phase errors under `networks.zones` or on the nil path. -/
theorem C7_error_order (infra : InfrastructureConfig) (n : String) (p s : Option String) :
    ValidateInfrastructureConfig infra n p s =
        zonePhaseErrs infra n ++
          vpcPhaseErrs infra.networks.vpc n p s (zoneCIDRsFrom 0 infra.networks.zones) ++
          overlapPhaseErrs infra p s ∧
      (∀ e ∈ zonePhaseErrs infra n, e.field.isUnder zonesPath) ∧
      (∀ e ∈ vpcPhaseErrs infra.networks.vpc n p s (zoneCIDRsFrom 0 infra.networks.zones),
        e.field = vpcPath ∨ e.field = vpcCidrPath) ∧
      ∀ e ∈ overlapPhaseErrs infra p s,
        e.field.isUnder zonesPath ∨ e.field = FieldPath.nil :=
  ⟨rfl, fun _ he => (mem_zonePhaseErrs he).2, fun _ he => (mem_vpcPhaseErrs he).2,
    fun _ he => (mem_overlapPhaseErrs he).2⟩

/-- C7 witness: the order theorem applied to the malformed-zone
configuration, with the zone-membership hypothesis instantiated at the
concrete parse error. -/
theorem C7_error_order_witness :
    ValidateInfrastructureConfig malformedConfig "10.0.0.0/16" none none =
        zonePhaseErrs malformedConfig "10.0.0.0/16" ++
          vpcPhaseErrs malformedConfig.networks.vpc "10.0.0.0/16" none none
            (zoneCIDRsFrom 0 malformedConfig.networks.zones) ++
          overlapPhaseErrs malformedConfig none none ∧
      (FieldError.mkInvalid (zoneInternalPath 0) "invalid CIDR address").field.isUnder
        zonesPath := by
  have h := C7_error_order malformedConfig "10.0.0.0/16" none none
  exact ⟨h.1, h.2.1 _ (by decide)⟩

/-- C3: the pairwise overlap pass contributes one `Invalid` error per
intersecting unordered pair of parsed zone CIDR entries — its length equals
the number of such pairs — and that count is invariant under any
permutation of the zone list. -/
theorem C3_overlap_pairs (infra : InfrastructureConfig) (n : String) (p s : Option String) :
    ValidateInfrastructureConfig infra n p s =
        zonePhaseErrs infra n ++
          vpcPhaseErrs infra.networks.vpc n p s (zoneCIDRsFrom 0 infra.networks.zones) ++
          (pairwiseOverlapErrs (zoneCIDRsFrom 0 infra.networks.zones) ++
            ambientOverlapErrs p (zoneCIDRsFrom 0 infra.networks.zones) ++
            ambientOverlapErrs s (zoneCIDRsFrom 0 infra.networks.zones)) ∧
      (pairwiseOverlapErrs (zoneCIDRsFrom 0 infra.networks.zones)).length =
        ovlCount (zoneStrs infra.networks.zones) ∧
      (∀ e ∈ pairwiseOverlapErrs (zoneCIDRsFrom 0 infra.networks.zones),
        e.type = ErrorType.invalid) ∧
      ∀ zs' : List Zone, infra.networks.zones.Perm zs' →
        (pairwiseOverlapErrs (zoneCIDRsFrom 0 zs')).length =
          (pairwiseOverlapErrs (zoneCIDRsFrom 0 infra.networks.zones)).length := by
  refine ⟨rfl, ?_, ?_, ?_⟩
  · rw [length_pairwiseOverlapErrs, zoneCIDRsFrom_map_str]
  · intro e he
    obtain ⟨a, ha, b, hb, he'⟩ := mem_pairwiseOverlapErrs he
    subst he'
    rfl
  · intro zs' hperm
    rw [length_pairwiseOverlapErrs, length_pairwiseOverlapErrs,
      zoneCIDRsFrom_map_str, zoneCIDRsFrom_map_str]
    exact (ovlCount_perm (zoneStrs_perm hperm)).symm

/-- C3 witness: the spec's overlap-symmetry example — zone A internal
`10.0.0.0/24` overlapping zone B public `10.0.0.128/25` — yields exactly one
overlap error, and listing the zones in the other order yields the same
count. -/
theorem C3_overlap_pairs_witness :
    (pairwiseOverlapErrs (zoneCIDRsFrom 0 overlapConfigAB.networks.zones)).length = 1 ∧
      (pairwiseOverlapErrs (zoneCIDRsFrom 0 [overlapZoneB, overlapZoneA])).length =
        (pairwiseOverlapErrs (zoneCIDRsFrom 0 overlapConfigAB.networks.zones)).length := by
  refine ⟨by decide, ?_⟩
  exact (C3_overlap_pairs overlapConfigAB "10.0.0.0/8" none none).2.2.2
    [overlapZoneB, overlapZoneA] (by decide)

/-- C10: when the cluster lookup succeeds, the generic validator admits
(returns no error) iff the combined error list — the kind-switched generic
extension-object validation plus the provider validator's result — is empty,
and a non-empty list is returned as the single error carrying the full
formatted list. -/
theorem C10_generic_validator_admission (env : GenericValidatorEnv)
    (oldObj : Option ExtObject) (newObj : ExtObject) (cluster : Cluster)
    (hc : env.getCluster newObj.ns = Except.ok cluster) :
    (genericValidatorValidate env oldObj newObj = Except.ok () ↔
      genericExtValidationErrs env oldObj newObj ++
        providerValidationErrs env cluster oldObj newObj = []) ∧
    (genericExtValidationErrs env oldObj newObj ++
        providerValidationErrs env cluster oldObj newObj ≠ [] →
      genericValidatorValidate env oldObj newObj =
        Except.error (formatErrorList (genericExtValidationErrs env oldObj newObj ++
          providerValidationErrs env cluster oldObj newObj))) := by
  unfold genericValidatorValidate
  rw [hc]
  by_cases hl : genericExtValidationErrs env oldObj newObj ++
      providerValidationErrs env cluster oldObj newObj = []
  · rw [hl]
    simp [hl]
  · have hpos : 0 < (genericExtValidationErrs env oldObj newObj ++
        providerValidationErrs env cluster oldObj newObj).length :=
      List.length_pos.mpr hl
    constructor
    · simp only [if_pos hpos]
      constructor
      · intro h
        exact absurd h (by simp)
      · intro h
        exact absurd h hl
    · intro _
      simp only [if_pos hpos]

/-- C10 witness: with collaborators that all return empty lists and a
successful cluster lookup, the generic validator admits the object. -/
theorem C10_generic_validator_admission_witness :
    genericValidatorValidate genericEnv0 none extObj0 = Except.ok () :=
  ((C10_generic_validator_admission genericEnv0 none extObj0 cluster0 rfl).1).mpr rfl

/-- C8: the validator itself only emits `Required` or `Invalid` errors —
malformed CIDR strings become validation errors, never faults or
InternalErrors — while the calling layer's `infrastructureConfigFrom`
produces an InternalError entry exactly when decoding the raw
provider-config bytes fails. -/
theorem C8_failure_semantics (infra : InfrastructureConfig) (n : String)
    (p s : Option String) :
    (∀ e ∈ ValidateInfrastructureConfig infra n p s,
        e.type = ErrorType.required ∨ e.type = ErrorType.invalid) ∧
      ∀ pc : Option DecodeResult,
        ((∃ e ∈ infraConfigFromErrList pc, e.type = ErrorType.internalError) ↔
          ∃ m, pc = some (DecodeResult.failure m)) := by
  constructor
  · intro e he
    unfold ValidateInfrastructureConfig at he
    rcases List.mem_append.mp he with h12 | h3
    · rcases List.mem_append.mp h12 with h1 | h2
      · exact (mem_zonePhaseErrs h1).1
      · exact Or.inr (mem_vpcPhaseErrs h2).1
    · exact Or.inr (mem_overlapPhaseErrs h3).1
  · intro pc
    constructor
    · rintro ⟨e, he, ht⟩
      rcases pc with _ | r
      · simp only [infraConfigFromErrList, infrastructureConfigFrom,
          List.mem_singleton] at he
        subst he
        simp [FieldError.mkInvalid] at ht
      · rcases r with cfg | msg
        · simp [infraConfigFromErrList, infrastructureConfigFrom] at he
        · exact ⟨msg, rfl⟩
    · rintro ⟨m, rfl⟩
      refine ⟨FieldError.mkInternal FieldPath.nil
        ("could not decode provider config: " ++ m), ?_, rfl⟩
      simp [infraConfigFromErrList, infrastructureConfigFrom]

/-- C8 witness: a malformed zone CIDR yields an Invalid entry (not an
internal fault), while a decode failure in the calling layer yields an
InternalError entry. -/
theorem C8_failure_semantics_witness :
    ((FieldError.mkInvalid (zoneInternalPath 0) "invalid CIDR address").type =
        ErrorType.required ∨
      (FieldError.mkInvalid (zoneInternalPath 0) "invalid CIDR address").type =
        ErrorType.invalid) ∧
      ∃ e ∈ infraConfigFromErrList (some (DecodeResult.failure "bad bytes")),
        e.type = ErrorType.internalError := by
  have h := C8_failure_semantics malformedConfig "10.0.0.0/16" none none
  exact ⟨h.1 _ (by decide), (h.2 (some (DecodeResult.failure "bad bytes"))).mpr
    ⟨"bad bytes", rfl⟩⟩

/-- C5: for a parsed nodes CIDR, each zone whose parsed worker CIDR is not a
subset of it yields exactly one error at that worker's field path in the
worker-subset check — and none when it is a subset; those errors are all
`Invalid`, and a violation's error appears in the full validator output. -/
theorem C5_worker_subset (infra : InfrastructureConfig) (n : String) (p s : Option String)
    (nn : IPNet) (hn : parseCIDR n = some nn) (i : Nat) (z : Zone)
    (hz : infra.networks.zones[i]? = some z) (wn : IPNet)
    (hw : parseCIDR z.workers = some wn) :
    (workerSubsetErrs n (workerCIDRsFrom 0 infra.networks.zones)).countP
        (fun e => decide (e.field = zoneWorkersPath i)) =
        (if wn.subsetOf nn then 0 else 1) ∧
      (∀ e ∈ workerSubsetErrs n (workerCIDRsFrom 0 infra.networks.zones),
        e.type = ErrorType.invalid) ∧
      (wn.subsetOf nn = false →
        workerSubsetErr i ∈ ValidateInfrastructureConfig infra n p s) := by
  have hseg : workerSubsetErrs n (workerCIDRsFrom 0 infra.networks.zones) =
      validateWorkersSubsetOfNodes nn (workerCIDRsFrom 0 infra.networks.zones) := by
    unfold workerSubsetErrs
    rw [hn]
  have hcnt := workerSubset_countP nn infra.networks.zones 0 i z hz wn hw
  rw [Nat.zero_add] at hcnt
  refine ⟨by rw [hseg]; exact hcnt, ?_, ?_⟩
  · intro e he
    obtain ⟨w, hw', he'⟩ := mem_workerSubsetErrs he
    subst he'
    rfl
  · intro hfalse
    have h1 : (workerSubsetErrs n (workerCIDRsFrom 0 infra.networks.zones)).countP
        (fun e => decide (e.field = zoneWorkersPath i)) = 1 := by
      rw [hseg, hcnt, hfalse]
      rfl
    have hpos : 0 < (workerSubsetErrs n (workerCIDRsFrom 0 infra.networks.zones)).countP
        (fun e => decide (e.field = zoneWorkersPath i)) := by
      rw [h1]
      exact Nat.zero_lt_one
    obtain ⟨e, he, hpe⟩ := List.countP_pos_iff.mp hpos
    obtain ⟨w, hwmem, he'⟩ := mem_workerSubsetErrs he
    subst he'
    simp only [decide_eq_true_eq] at hpe
    have heq : FieldError.mkInvalid w.path "must be a subset of the nodes cidr" =
        workerSubsetErr i := by
      unfold workerSubsetErr
      have hp : w.path = zoneWorkersPath i := hpe
      rw [hp]
    rw [heq] at he
    unfold ValidateInfrastructureConfig
    refine List.mem_append_left _ (List.mem_append_left _ ?_)
    unfold zonePhaseErrs
    exact List.mem_append_right _ he

/-- C5 witness: with nodes CIDR `10.0.0.0/16`, a worker CIDR `10.1.0.0/24`
produces exactly one worker-subset error at its field path and that error
is in the full output; a worker CIDR `10.0.2.0/24` (a subset) produces
none. -/
theorem C5_worker_subset_witness :
    (workerSubsetErrs "10.0.0.0/16" (workerCIDRsFrom 0 c5Config.networks.zones)).countP
        (fun e => decide (e.field = zoneWorkersPath 0)) = 1 ∧
      workerSubsetErr 0 ∈ ValidateInfrastructureConfig c5Config "10.0.0.0/16" none none ∧
      (workerSubsetErrs "10.0.0.0/16" (workerCIDRsFrom 0 validConfig.networks.zones)).countP
        (fun e => decide (e.field = zoneWorkersPath 0)) = 0 := by
  have h1 := C5_worker_subset c5Config "10.0.0.0/16" none none
    ⟨167772160, 16⟩ (by decide) 0 ⟨"zone-a", "10.0.0.0/24", "10.0.1.0/24", "10.1.0.0/24"⟩
    (by decide) ⟨167837696, 24⟩ (by decide)
  have h2 := C5_worker_subset validConfig "10.0.0.0/16" none none
    ⟨167772160, 16⟩ (by decide) 0 ⟨"zone-a", "10.0.0.0/24", "10.0.1.0/24", "10.0.2.0/24"⟩
    (by decide) ⟨167772672, 24⟩ (by decide)
  refine ⟨?_, h1.2.2 (by decide), ?_⟩
  · have := h1.1
    rwa [if_neg (by decide)] at this
  · have := h2.1
    rwa [if_pos (by decide)] at this

/-- C2: for an explicit, canonical, parseable VPC CIDR, a supplied and
parsed pod (or service) CIDR triggers the Invalid non-intersection error on
the VPC CIDR field exactly when its address range shares an address with
the VPC CIDR's range (either subset direction or partial overlap), and the
check appends nothing when the ranges are disjoint. -/
theorem C2_vpc_pod_service_overlap (infra : InfrastructureConfig) (n : String)
    (p s : Option String) (v : String)
    (hid : infra.networks.vpc.id = none) (hcidr : infra.networks.vpc.cidr = some v)
    (hcanon : validateCIDRIsCanonical vpcCidrPath v = [])
    (vn : IPNet) (hv : parseCIDR v = some vn) :
    (∀ pstr : String, ∀ pn : IPNet, p = some pstr → parseCIDR pstr = some pn →
      ((vn.intersects pn = true ↔
          ∃ x, (vn.first ≤ x ∧ x ≤ vn.last) ∧ (pn.first ≤ x ∧ x ≤ pn.last)) ∧
        (vn.intersects pn = true →
          FieldError.mkInvalid vpcCidrPath "must not intersect with the pods cidr" ∈
            ValidateInfrastructureConfig infra n p s) ∧
        (vn.intersects pn = false → vpcNotIntersectErr vn "pods" p = []))) ∧
    ∀ sstr : String, ∀ sn : IPNet, s = some sstr → parseCIDR sstr = some sn →
      ((vn.intersects sn = true →
          FieldError.mkInvalid vpcCidrPath "must not intersect with the services cidr" ∈
            ValidateInfrastructureConfig infra n p s) ∧
        (vn.intersects sn = false → vpcNotIntersectErr vn "services" s = [])) := by
  have hvpceq : infra.networks.vpc = ⟨none, some v⟩ := by
    cases hvv : infra.networks.vpc with
    | mk a b =>
      rw [hvv] at hid hcidr
      simp only at hid hcidr
      rw [hid, hcidr]
  have hpump : ∀ e : FieldError,
      e ∈ vpcNotIntersectErr vn "pods" p ∨ e ∈ vpcNotIntersectErr vn "services" s →
        e ∈ ValidateInfrastructureConfig infra n p s := by
    intro e he
    unfold ValidateInfrastructureConfig
    refine List.mem_append_left _ (List.mem_append_right _ ?_)
    rw [hvpceq]
    show e ∈ validateCIDRIsCanonical vpcCidrPath v ++
      CIDRObj.validateParse ⟨v, vpcCidrPath⟩ ++
      (match parseCIDR v with
       | some vn' =>
         (match parseCIDR n with
          | some nn =>
            if nn.subsetOf vn' = true then []
            else [FieldError.mkInvalid vpcCidrPath "must be a superset of the nodes cidr"]
          | none => []) ++
         vpcSubsetZoneErrs vn' (zoneCIDRsFrom 0 infra.networks.zones) ++
         vpcNotIntersectErr vn' "pods" p ++
         vpcNotIntersectErr vn' "services" s
       | none => [])
    refine List.mem_append_right _ ?_
    rw [hv]
    rcases he with he | he
    · exact List.mem_append_left _ (List.mem_append_right _ he)
    · exact List.mem_append_right _ he
  constructor
  · intro pstr pn hp hpn
    refine ⟨IPNet.intersects_iff_exists vn pn, ?_, ?_⟩
    · intro hint
      apply hpump
      left
      unfold vpcNotIntersectErr
      rw [hp]
      simp only [hpn]
      rw [if_pos hint]
      exact List.mem_singleton.mpr (by decide)
    · intro hfalse
      unfold vpcNotIntersectErr
      rw [hp]
      simp only [hpn]
      rw [if_neg (by simp [hfalse])]
  · intro sstr sn hs hsn
    constructor
    · intro hint
      apply hpump
      right
      unfold vpcNotIntersectErr
      rw [hs]
      simp only [hsn]
      rw [if_pos hint]
      exact List.mem_singleton.mpr (by decide)
    · intro hfalse
      unfold vpcNotIntersectErr
      rw [hs]
      simp only [hsn]
      rw [if_neg (by simp [hfalse])]

/-- C2 witness: VPC CIDR `10.0.0.0/16` with pods CIDR `10.0.128.0/17`
(contained in the VPC range) produces the pods non-intersection error in the
full output, and with services CIDR `100.65.0.0/16` (disjoint) the services
check appends nothing. -/
theorem C2_vpc_pod_service_overlap_witness :
    FieldError.mkInvalid vpcCidrPath "must not intersect with the pods cidr" ∈
        ValidateInfrastructureConfig e2eConfig "10.0.0.0/16"
          (some "10.0.128.0/17") (some "100.65.0.0/16") ∧
      vpcNotIntersectErr ⟨167772160, 16⟩ "services" (some "100.65.0.0/16") = [] := by
  have h := C2_vpc_pod_service_overlap e2eConfig "10.0.0.0/16"
    (some "10.0.128.0/17") (some "100.65.0.0/16") "10.0.0.0/16" rfl rfl (by decide)
    ⟨167772160, 16⟩ (by decide)
  refine ⟨?_, ?_⟩
  · exact ((h.1 "10.0.128.0/17" ⟨167804928, 17⟩ rfl (by decide)).2.1) (by decide)
  · exact (h.2 "100.65.0.0/16" ⟨1681981440, 16⟩ rfl (by decide)).2 (by decide)

/-- C6: supplying both a vpc id and a vpc CIDR, or neither, puts exactly one
error on the `networks.vpc` field path — and it is the Invalid discriminator
error — while supplying exactly one of the two puts zero errors on that
path. -/
theorem C6_vpc_discriminator (infra : InfrastructureConfig) (n : String)
    (p s : Option String) :
    ((infra.networks.vpc.id = none ∧ infra.networks.vpc.cidr = none) ∨
        (∃ a b, infra.networks.vpc.id = some a ∧ infra.networks.vpc.cidr = some b) →
      (ValidateInfrastructureConfig infra n p s).countP
        (fun e => decide (e.field = vpcPath)) = 1) ∧
    ((∃ a, infra.networks.vpc.id = some a ∧ infra.networks.vpc.cidr = none) ∨
        (∃ b, infra.networks.vpc.id = none ∧ infra.networks.vpc.cidr = some b) →
      (ValidateInfrastructureConfig infra n p s).countP
        (fun e => decide (e.field = vpcPath)) = 0) ∧
    ∀ e ∈ ValidateInfrastructureConfig infra n p s, e.field = vpcPath →
      e = vpcDiscErr := by
  have hcount : (ValidateInfrastructureConfig infra n p s).countP
      (fun e => decide (e.field = vpcPath)) =
      (vpcPhaseErrs infra.networks.vpc n p s
        (zoneCIDRsFrom 0 infra.networks.zones)).countP
        (fun e => decide (e.field = vpcPath)) := by
    unfold ValidateInfrastructureConfig
    rw [List.countP_append, List.countP_append, countP_vpcPath_zonePhase,
      countP_vpcPath_overlapPhase]
    omega
  rcases hid : infra.networks.vpc.id with _ | a <;>
    rcases hcid : infra.networks.vpc.cidr with _ | b
  · have hseg : vpcPhaseErrs infra.networks.vpc n p s
        (zoneCIDRsFrom 0 infra.networks.zones) = [vpcDiscErr] := by
      unfold vpcPhaseErrs
      rw [hid, hcid]
      rfl
    refine ⟨fun _ => ?_, fun hone => ?_, fun e he hf => ?_⟩
    · rw [hcount, hseg]
      decide
    · rcases hone with ⟨a, ha, _⟩ | ⟨b, _, hb⟩
      · simp at ha
      · simp at hb
    · unfold ValidateInfrastructureConfig at he
      rcases List.mem_append.mp he with h12 | h3
      rcases List.mem_append.mp h12 with h1 | h2
      · exact absurd hf (ne_vpcPath_of_under_zones (mem_zonePhaseErrs h1).2)
      · rw [hseg] at h2
        simpa using h2
      · rcases (mem_overlapPhaseErrs h3).2 with hu | hnl
        · exact absurd hf (ne_vpcPath_of_under_zones hu)
        · rw [hnl] at hf
          exact absurd hf nil_ne_vpcPath
  · have hvpceq : infra.networks.vpc = ⟨none, some b⟩ := by
      cases hvv : infra.networks.vpc with
      | mk x y =>
        rw [hvv] at hid hcid
        simp only at hid hcid
        rw [hid, hcid]
    have hseg : (vpcPhaseErrs infra.networks.vpc n p s
        (zoneCIDRsFrom 0 infra.networks.zones)).countP
        (fun e => decide (e.field = vpcPath)) = 0 := by
      rw [hvpceq, List.countP_eq_zero]
      intro e he
      have hfld := mem_vpcPhaseErrs_cidrOnly he
      simp only [decide_eq_true_eq, hfld]
      exact vpcCidrPath_ne_vpcPath
    refine ⟨fun hone => ?_, fun _ => by rw [hcount]; exact hseg, fun e he hf => ?_⟩
    · rcases hone with ⟨_, hb⟩ | ⟨a', b', ha', _⟩
      · simp at hb
      · simp at ha'
    · unfold ValidateInfrastructureConfig at he
      rcases List.mem_append.mp he with h12 | h3
      rcases List.mem_append.mp h12 with h1 | h2
      · exact absurd hf (ne_vpcPath_of_under_zones (mem_zonePhaseErrs h1).2)
      · rw [hvpceq] at h2
        have hfld := mem_vpcPhaseErrs_cidrOnly h2
        rw [hf] at hfld
        exact absurd hfld.symm vpcCidrPath_ne_vpcPath
      · rcases (mem_overlapPhaseErrs h3).2 with hu | hnl
        · exact absurd hf (ne_vpcPath_of_under_zones hu)
        · rw [hnl] at hf
          exact absurd hf nil_ne_vpcPath
  · have hseg : vpcPhaseErrs infra.networks.vpc n p s
        (zoneCIDRsFrom 0 infra.networks.zones) = [] := by
      unfold vpcPhaseErrs
      rw [hid, hcid]
    refine ⟨fun hone => ?_, fun _ => ?_, fun e he hf => ?_⟩
    · rcases hone with ⟨h1, _⟩ | ⟨a', b', _, hb'⟩
      · simp at h1
      · simp at hb'
    · rw [hcount, hseg]
      rfl
    · unfold ValidateInfrastructureConfig at he
      rcases List.mem_append.mp he with h12 | h3
      rcases List.mem_append.mp h12 with h1 | h2
      · exact absurd hf (ne_vpcPath_of_under_zones (mem_zonePhaseErrs h1).2)
      · rw [hseg] at h2
        simp at h2
      · rcases (mem_overlapPhaseErrs h3).2 with hu | hnl
        · exact absurd hf (ne_vpcPath_of_under_zones hu)
        · rw [hnl] at hf
          exact absurd hf nil_ne_vpcPath
  · have hseg : vpcPhaseErrs infra.networks.vpc n p s
        (zoneCIDRsFrom 0 infra.networks.zones) = [vpcDiscErr] := by
      unfold vpcPhaseErrs
      rw [hid, hcid]
      rfl
    refine ⟨fun _ => ?_, fun hone => ?_, fun e he hf => ?_⟩
    · rw [hcount, hseg]
      decide
    · rcases hone with ⟨a', _, hb'⟩ | ⟨b', hb1', _⟩
      · simp at hb'
      · simp at hb1'
    · unfold ValidateInfrastructureConfig at he
      rcases List.mem_append.mp he with h12 | h3
      rcases List.mem_append.mp h12 with h1 | h2
      · exact absurd hf (ne_vpcPath_of_under_zones (mem_zonePhaseErrs h1).2)
      · rw [hseg] at h2
        simpa using h2
      · rcases (mem_overlapPhaseErrs h3).2 with hu | hnl
        · exact absurd hf (ne_vpcPath_of_under_zones hu)
        · rw [hnl] at hf
          exact absurd hf nil_ne_vpcPath

/-- C6 witness: supplying both a vpc id and CIDR yields exactly one error on
the vpc path; supplying only a CIDR yields zero errors on the vpc path. -/
theorem C6_vpc_discriminator_witness :
    (ValidateInfrastructureConfig bothVPCConfig "10.0.0.0/16" none none).countP
        (fun e => decide (e.field = vpcPath)) = 1 ∧
      (ValidateInfrastructureConfig validConfig "10.0.0.0/16" none none).countP
        (fun e => decide (e.field = vpcPath)) = 0 :=
  ⟨(C6_vpc_discriminator bothVPCConfig "10.0.0.0/16" none none).1
      (Or.inr ⟨"vpc-1234", "10.0.0.0/16", rfl, rfl⟩),
    (C6_vpc_discriminator validConfig "10.0.0.0/16" none none).2.1
      (Or.inr ⟨"10.0.0.0/16", rfl, rfl⟩)⟩
